import Mathlib

/-!
# Verification of the Polarization-SHG-Controller scan engine

Shallow embedding of the scan orchestration code of this repository:

* `src/scan_logic.py` — `ScanLogic.start_scan` and `ScanLogic._run_scan_loop`
  (angle-plan computation via `np.arange`, the per-step loop with abort/pause
  checks, the artifact-fetch fallback, the dynamic-metric hook, progress/ETA
  reporting, and the completion-callback discipline of the
  `try/except/finally` block);
* `src/analysis_module.py` — `AnalysisModule.calculate_intensity`;
* `src/plotting_module.py` — `PlottingModule.fit_intensity_data` (the
  fixed-parameter partition and reconstruction) and
  `PlottingModule.add_intensity_analysis_point`.

Machine floats are modelled by `ℚ` (the arithmetic the code performs is
exact on the inputs considered here); Python exceptions by an explicit
`ScanError` sum; the external device and timing environment (abort/pause
flag observations, stage positions, acquisition success, artifact
contents, elapsed wall time) by a per-step environment record `StepEnv`.
-/

namespace SHGScan

/-! ## Step sequencer (scan_logic.py, lines 182–186)

`np.arange(start, stop, step)` produces `start + i*step` for
`0 ≤ i < ⌈(stop - start)/step⌉` (empty when the ceiling is nonpositive).
`np.arange` with `step == 0` raises `ZeroDivisionError`; the caller guards
this case explicitly in `computeAngles` below. -/

def arangeLen (start stop step : ℚ) : ℕ := (⌈(stop - start) / step⌉).toNat

def arange (start stop step : ℚ) : List ℚ :=
  (List.range (arangeLen start stop step)).map (fun i : ℕ => start + (i : ℚ) * step)

/-- The Python exceptions that can escape the scan loop's `try` block. -/
inductive ScanError where
  | zeroDivisionError
  | indexError
  | runtimeError (msg : String)
deriving DecidableEq

/-- Lines 182–186 of `scan_logic.py`:
```
angles = np.arange(start, end + step / 2, step)
if abs(angles[-1] - end) > abs(step / 2):
    angles = np.arange(start, end, step)
```
`angles[-1]` on an empty array raises `IndexError`; `np.arange` with
`step == 0` raises `ZeroDivisionError`. -/
def computeAngles (s e st : ℚ) : Except ScanError (List ℚ) :=
  if st = 0 then .error .zeroDivisionError
  else
    let angles := arange s (e + st / 2) st
    match angles.getLast? with
    | none => .error .indexError
    | some last =>
      if |last - e| > |st / 2| then .ok (arange s e st)
      else .ok angles

/-! ## Progress / ETA report (scan_logic.py, lines 348–360) -/

/-- The `(progress, eta_sec)` pair computed at the end of step `i`
(0-based) of a scan with `numSteps` steps, `elapsed` seconds after start:
```
progress = (i + 1) / num_steps
eta_sec = None
if i > 0:
    time_per_step = elapsed_time / (i + 1)
    remaining_steps = num_steps - (i + 1)
    eta_sec = remaining_steps * time_per_step
```
-/
def progressReport (i numSteps : ℕ) (elapsed : ℚ) : ℚ × Option ℚ :=
  (((i : ℚ) + 1) / (numSteps : ℚ),
    if 0 < i then
      some (((numSteps : ℚ) - ((i : ℚ) + 1)) * (elapsed / ((i : ℚ) + 1)))
    else none)

/-! ## Intensity (analysis_module.py, `calculate_intensity`, 1-D path)

The scan loop passes the 1-D intensity column.  With an ROI set the code
clamps `roi_end` to the data length and sums `data[roi_start:roi_end]`
(`0.0` if the clamped ROI is empty); with no ROI it sums the whole
spectrum; empty data gives `0.0`. -/

def calculate_intensity (roi : Option (ℕ × ℕ)) (data : List ℚ) : ℚ :=
  if data.length = 0 then 0
  else
    match roi with
    | some (roiStart, roiEnd) =>
      let roiEndC := min roiEnd data.length
      if roiEndC ≤ roiStart then 0
      else ((data.drop roiStart).take (roiEndC - roiStart)).sum
    | none => data.sum

/-! ## The scan loop (scan_logic.py, `_run_scan_loop`, lines 140–401)

The loop's interaction with the outside world at step `i` is captured by
`StepEnv`: the value of the abort event at the two per-iteration checks
(lines 200 and 211; the pause gate `self._pause_event.wait()` sits between
them and only blocks, so its effect is fully described by the abort value
observed after it unblocks), the stage position reported after the move,
whether `lf.acquire()` returned `True`, the rows of the artifact CSV if
the file appeared with a valid two-column shape within the bounded wait
(`none` otherwise), and the elapsed wall time observed at the progress
computation. -/

structure StepEnv where
  abortAtCheck1 : Bool
  abortAtCheck2 : Bool
  actualPos : ℚ
  acquireOk : Bool
  fetched : Option (List (ℚ × ℚ))
  elapsed : ℚ
deriving DecidableEq

/-- `result_entry = {'angle_target': angle, 'angle_actual': current_pos,
'intensity': intensity}` (line 345). -/
structure StepResult where
  angle_target : ℚ
  angle_actual : ℚ
  intensity : ℚ
deriving DecidableEq, Inhabited

/-- The scan parameters `_run_scan_loop` reads from
`_current_scan_params` that matter to the loop body modelled here. -/
structure ScanConfig where
  start_angle : ℚ
  end_angle : ℚ
  step_angle : ℚ
  plot_dynamic_intensity : Bool
  wavelength_min : Option ℚ
  wavelength_max : Option ℚ
deriving DecidableEq

/-- Observable accumulating state of one loop execution: the stage moves
commanded, the `all_results` list, the `(angle, max-intensity)` points
handed to `PlottingModule.add_intensity_analysis_point` (which appends
them to `angle_data` / `intensity_data`, plotting_module.py lines
124–133), the warning statuses surfaced, and the per-step progress
reports. -/
structure LoopState where
  moves : List ℚ
  results : List StepResult
  fitPoints : List (ℚ × ℚ)
  warnings : List String
  reports : List (ℚ × Option ℚ)
deriving DecidableEq

def initLoopState : LoopState :=
  { moves := [], results := [], fitPoints := [], warnings := [], reports := [] }

/-- Lines 326–345: `intensity = 0.0`, overwritten by
`analyzer.calculate_intensity(intensity_data)` only when the artifact
data was loaded. -/
def stepResultOf (roi : Option (ℕ × ℕ)) (e : StepEnv) (angle : ℚ) : StepResult :=
  { angle_target := angle,
    angle_actual := e.actualPos,
    intensity :=
      match e.fetched with
      | some rows => calculate_intensity roi (rows.map Prod.snd)
      | none => 0 }

/-- Lines 303–322, the dynamic-metric hook: when enabled with both band
edges configured and data loaded, build the mask
`(wavelength_data >= wvl_min) & (wavelength_data <= wvl_max)`; if any
point survives, the metric is `np.max(intensity_data[mask])` paired with
the measured position; otherwise only a warning is logged. -/
def dynFitPoint (cfg : ScanConfig) (e : StepEnv) : Option (ℚ × ℚ) :=
  if cfg.plot_dynamic_intensity then
    match cfg.wavelength_min, cfg.wavelength_max, e.fetched with
    | some wvlMin, some wvlMax, some rows =>
      let inBand := rows.filter (fun r => decide (wvlMin ≤ r.1) && decide (r.1 ≤ wvlMax))
      match (inBand.map Prod.snd).max? with
      | some m => some (e.actualPos, m)
      | none => none
    | _, _, _ => none
  else none

/-- The warning statuses a fully-executed step can surface: the
artifact-missing warning (lines 285–286) and the empty-band warning of
the dynamic-metric hook (line 318). -/
def stepWarnings (cfg : ScanConfig) (e : StepEnv) : List String :=
  (match e.fetched with
   | none => ["File not found"]
   | some _ => []) ++
  (if cfg.plot_dynamic_intensity then
    match cfg.wavelength_min, cfg.wavelength_max, e.fetched with
    | some wvlMin, some wvlMax, some rows =>
      if rows.filter (fun r => decide (wvlMin ≤ r.1) && decide (r.1 ≤ wvlMax)) = [] then
        ["No data points found within wavelength range"]
      else []
    | _, _, _ => []
   else [])

/-- State update of one fully-executed step body (the move itself is
recorded separately, before the acquire can fail). -/
def applyStep (cfg : ScanConfig) (roi : Option (ℕ × ℕ)) (e : StepEnv)
    (i numSteps : ℕ) (angle : ℚ) (st : LoopState) : LoopState :=
  { st with
    results := st.results ++ [stepResultOf roi e angle],
    fitPoints := st.fitPoints ++ (dynFitPoint cfg e).toList,
    warnings := st.warnings ++ stepWarnings cfg e,
    reports := st.reports ++ [progressReport i numSteps e.elapsed] }

/-- How the `try` block of `_run_scan_loop` was left. -/
inductive ExitKind where
  | completed
  | aborted
  | errored (err : ScanError)
deriving DecidableEq

/-- The `for i, angle in enumerate(angles)` loop (lines 197–363).  At each
iteration: abort check (line 200), pause gate then second abort check
(lines 207–214) — both checks `return` from the `try` block; the move
(lines 220–224); `lf.acquire()`, whose `False` return raises
`RuntimeError` (lines 245–246); then artifact fetch, hooks, result append
and progress report, none of which can abort the loop. -/
def runSteps (cfg : ScanConfig) (roi : Option (ℕ × ℕ)) (env : ℕ → StepEnv)
    (numSteps : ℕ) : List ℚ → ℕ → LoopState → LoopState × ExitKind
  | [], _, st => (st, .completed)
  | angle :: rest, i, st =>
    let e := env i
    if e.abortAtCheck1 then (st, .aborted)
    else if e.abortAtCheck2 then (st, .aborted)
    else
      let stMoved := { st with moves := st.moves ++ [angle] }
      if e.acquireOk = false then
        (stMoved, .errored (.runtimeError "LightField acquisition command failed"))
      else
        runSteps cfg roi env numSteps rest (i + 1) (applyStep cfg roi e i numSteps angle stMoved)

/-- Messages of the completion callback on the exception paths (lines
374–386). -/
def errMsg : ScanError → String
  | .runtimeError m => "Scan Error: " ++ m
  | .indexError => "Unexpected Scan Error: IndexError"
  | .zeroDivisionError => "Unexpected Scan Error: ZeroDivisionError"

structure RunOutput where
  state : LoopState
  exit : ExitKind
  completions : List (Bool × String)
deriving DecidableEq

/-- Whole-body model of `_run_scan_loop` including the `except` handlers
and the `finally` block (lines 374–401).  `abortAtFinally` is the value
of `self._abort_event.is_set()` when the `finally` block runs (the abort
event is never cleared inside the loop, and `abort_scan` may set it
concurrently at any moment, including after the last in-loop check).

In Python 3 a name bound by `except ... as e` is unbound again when the
handler exits, so the guard `'e' not in locals()` in the `finally` block
(lines 393 and 398) is always true; the model reflects that: whenever the
abort event is set at `finally` time and the `try` block did not exit
through an in-loop abort `return`, the finally block issues a second
`scan_completed(success=False, message="Scan aborted by user.")` call on
top of the one already made by the `try` body or the `except` handler. -/
def runScanLoop (cfg : ScanConfig) (roi : Option (ℕ × ℕ)) (env : ℕ → StepEnv)
    (abortAtFinally : Bool) : RunOutput :=
  match computeAngles cfg.start_angle cfg.end_angle cfg.step_angle with
  | .error err =>
    { state := initLoopState, exit := .errored err,
      completions := (false, errMsg err) ::
        (if abortAtFinally then [(false, "Scan aborted by user.")] else []) }
  | .ok angles =>
    let p := runSteps cfg roi env angles.length angles 0 initLoopState
    match p.2 with
    | .completed =>
      { state := p.1, exit := .completed,
        completions :=
          (true, "Scan finished (data retrieval may have failed for some steps).") ::
            (if abortAtFinally then [(false, "Scan aborted by user.")] else []) }
    | .aborted =>
      { state := p.1, exit := .aborted,
        completions := [(false, "Scan aborted by user.")] }
    | .errored err =>
      { state := p.1, exit := .errored err,
        completions := (false, errMsg err) ::
          (if abortAtFinally then [(false, "Scan aborted by user.")] else []) }

/-! ## `ScanLogic.start_scan` (scan_logic.py, lines 56–94) -/

/-- The `ScanLogic` attributes `start_scan` reads or writes. -/
structure LogicState where
  isRunning : Bool
  currentScanParams : ScanConfig
  scanParameters : ScanConfig
  abortEventSet : Bool
  pauseEventSet : Bool
deriving DecidableEq

inductive StartOutcome where
  | alreadyRunningError
  | kdcNotConnected
  | lfNotConnected
  | started
deriving DecidableEq

/-- `start_scan`: reject when `is_running()`; reject (with a failure
completion callback) when either controller is disconnected; otherwise
store the parameters, clear the abort event, set the pause event, mark
the scan running and launch the thread.  The third component lists the
`scan_completed` calls made by `start_scan` itself. -/
def start_scan (st : LogicState) (params : ScanConfig) (kdcConnected lfConnected : Bool) :
    LogicState × StartOutcome × List (Bool × String) :=
  if st.isRunning then (st, .alreadyRunningError, [])
  else if kdcConnected = false then
    (st, .kdcNotConnected, [(false, "Scan failed: KDC101 not connected.")])
  else if lfConnected = false then
    (st, .lfNotConnected, [(false, "Scan failed: LightField not connected.")])
  else
    ({ isRunning := true, currentScanParams := params, scanParameters := params,
       abortEventSet := false, pauseEventSet := true },
     .started, [])

/-! ## `PlottingModule.fit_intensity_data` (plotting_module.py, lines 302–403)

Only the fixed-parameter machinery is modelled: the index partition
(line 336), the reduced initial guess and bounds (lines 353–354), the
call to the optimizer, and the reconstruction of the full parameter
vector (lines 371–376).  The optimizer itself (`scipy.optimize.curve_fit`)
is an opaque argument `opt`; the error/covariance reconstruction (lines
372–386) involves floating-point `sqrt` and is not modelled. -/

/-- `[i for i, fixed in enumerate(fixed_params_mask) if not fixed] if
fixed_params_mask else list(range(len(p0)))` — note `None` and the empty
list are both falsy in Python. -/
def variedIndices (mask : Option (List Bool)) (numParams : ℕ) : List ℕ :=
  match mask with
  | some m =>
    if m.isEmpty then List.range numParams
    else (List.range m.length).filter (fun i => m.getD i true = false)
  | none => List.range numParams

/-- The arguments actually passed to `curve_fit` for the reduced problem. -/
structure FitCall where
  p0Varied : List ℚ
  lowerVaried : List ℚ
  upperVaried : List ℚ
deriving DecidableEq

/-- `popt = list(p0)` then `popt[idx_varied] = popt_varied[i]` for each
varied index, in order (lines 371–376). -/
def reconstructPopt (p0 : List ℚ) (varied : List ℕ) (poptVaried : List ℚ) : List ℚ :=
  (varied.zip poptVaried).foldl (fun acc pr => acc.set pr.1 pr.2) p0

/-- `fit_intensity_data`, data-length guard and fixed-parameter pipeline.
Returns `none` on the early-return paths (`len < 3`, empty data, no free
parameters), otherwise the reduced call made to the optimizer together
with the reconstructed full parameter vector. -/
def fit_intensity_data (angleData intensityData : List ℚ) (p0 : List ℚ)
    (lowerBounds upperBounds : List ℚ) (mask : Option (List Bool))
    (opt : FitCall → List ℚ) : Option (FitCall × List ℚ) :=
  if angleData.isEmpty ∨ intensityData.isEmpty ∨ angleData.length < 3 then none
  else
    let varied := variedIndices mask p0.length
    if varied.isEmpty then none
    else
      let call : FitCall :=
        { p0Varied := varied.map (fun i => p0.getD i 0),
          lowerVaried := varied.map (fun i => lowerBounds.getD i 0),
          upperVaried := varied.map (fun i => upperBounds.getD i 0) }
      some (call, reconstructPopt p0 varied (opt call))

/-! ## Auxiliary definitions for stating the theorems -/

/-- A step at which the abort event is observed unset at both checks and
`lf.acquire()` succeeds, i.e. a step the loop executes to the end. -/
abbrev benignEnv (e : StepEnv) : Prop :=
  e.abortAtCheck1 = false ∧ e.abortAtCheck2 = false ∧ e.acquireOk = true

/-- The angle list paired with its (0-based) loop indices starting at `i`. -/
def withIdx : List ℚ → ℕ → List (ℕ × ℚ)
  | [], _ => []
  | a :: t, i => (i, a) :: withIdx t (i + 1)

/-- A sample step at which everything succeeds and no artifact appears. -/
def benignStep : StepEnv :=
  { abortAtCheck1 := false, abortAtCheck2 := false, actualPos := 0,
    acquireOk := true, fetched := none, elapsed := 0 }

/-- A run environment consisting of `benignStep` at every index. -/
def benignRun : ℕ → StepEnv := fun _ => benignStep

/-- A sample scan configuration: 0° → 30° in 15° steps, hooks off. -/
def cfgSample : ScanConfig :=
  { start_angle := 0, end_angle := 30, step_angle := 15,
    plot_dynamic_intensity := false, wavelength_min := none, wavelength_max := none }

/-- A step at which the abort event is observed set right after the pause
gate (an abort requested while the scan was paused). -/
def abortedAtPauseStep : StepEnv :=
  { abortAtCheck1 := false, abortAtCheck2 := true, actualPos := 0,
    acquireOk := true, fetched := none, elapsed := 0 }

/-- A `ScanLogic` state with a scan in flight. -/
def runningState : LogicState :=
  { isRunning := true, currentScanParams := cfgSample, scanParameters := cfgSample,
    abortEventSet := false, pauseEventSet := true }

/-- A sample configuration with the dynamic metric enabled on the band
[700, 800]. -/
def cfgDyn : ScanConfig :=
  { start_angle := 0, end_angle := 30, step_angle := 15,
    plot_dynamic_intensity := true, wavelength_min := some 700,
    wavelength_max := some 800 }

/-- A benign step whose artifact holds four points, two of them inside
the band [700, 800]. -/
def dynStep : StepEnv :=
  { abortAtCheck1 := false, abortAtCheck2 := false, actualPos := 10,
    acquireOk := true, fetched := some [(650, 1), (750, 5), (760, 3), (900, 9)],
    elapsed := 0 }

/-- A run environment consisting of `dynStep` at every index. -/
def dynRun : ℕ → StepEnv := fun _ => dynStep

/-! ## Helper lemmas -/

theorem arangeLen_eval (start stop step : ℚ) (n : ℕ)
    (h1 : ((n : ℚ) - 1) < (stop - start) / step) (h2 : (stop - start) / step ≤ (n : ℚ)) :
    arangeLen start stop step = n := by
  have h : (⌈(stop - start) / step⌉ : ℤ) = (n : ℤ) := by
    rw [Int.ceil_eq_iff]
    constructor
    · push_cast
      exact h1
    · push_cast
      exact h2
  simp [arangeLen, h]

theorem arangeLen_zero (start stop step : ℚ) (h : (stop - start) / step ≤ 0) :
    arangeLen start stop step = 0 := by
  simp only [arangeLen, Int.toNat_eq_zero]
  exact Int.ceil_le.mpr (by exact_mod_cast h)

theorem rat_max?_eq_some_iff (l : List ℚ) (m : ℚ) :
    l.max? = some m ↔ m ∈ l ∧ ∀ b ∈ l, b ≤ m := by
  have : Std.Antisymm (α := ℚ) (· ≤ ·) := ⟨@le_antisymm ℚ _⟩
  apply List.max?_eq_some_iff <;> simp [le_total, max_le_iff, max_choice]

theorem withIdx_length (l : List ℚ) : ∀ i : ℕ, (withIdx l i).length = l.length := by
  induction l with
  | nil => intro i; rfl
  | cons a t ih => intro i; simp [withIdx, ih]

theorem withIdx_getElem (l : List ℚ) : ∀ (i j : ℕ) (h : j < l.length),
    (withIdx l i).get ⟨j, by rw [withIdx_length]; exact h⟩ = (i + j, l.get ⟨j, h⟩) := by
  induction l with
  | nil => intro i j h; exact absurd h (by simp)
  | cons a t ih =>
    intro i j h
    match j with
    | 0 => simp [withIdx]
    | j + 1 =>
      have := ih (i + 1) j (by simpa using h)
      simpa [withIdx, Nat.add_assoc, Nat.add_comm 1 j] using this

theorem withIdx_mem (l : List ℚ) (i j : ℕ) (h : j < l.length) :
    (i + j, l.get ⟨j, h⟩) ∈ withIdx l i := by
  rw [← withIdx_getElem l i j h]
  exact List.get_mem _ _ _

/-- Closed form of a run in which every visited step is benign: the loop
executes every step and completes, and each field of the final state is
the concatenation of the per-step contributions. -/
theorem runSteps_benign (cfg : ScanConfig) (roi : Option (ℕ × ℕ)) (env : ℕ → StepEnv)
    (numSteps : ℕ) : ∀ (angles : List ℚ) (i : ℕ) (st : LoopState),
    (∀ k, i ≤ k → k < i + angles.length → benignEnv (env k)) →
    runSteps cfg roi env numSteps angles i st =
      ({ moves := st.moves ++ angles,
         results := st.results ++
           (withIdx angles i).map (fun p => stepResultOf roi (env p.1) p.2),
         fitPoints := st.fitPoints ++
           (withIdx angles i).flatMap (fun p => (dynFitPoint cfg (env p.1)).toList),
         warnings := st.warnings ++
           (withIdx angles i).flatMap (fun p => stepWarnings cfg (env p.1)),
         reports := st.reports ++
           (withIdx angles i).map (fun p => progressReport p.1 numSteps (env p.1).elapsed) },
       .completed) := by
  intro angles
  induction angles with
  | nil =>
    intro i st _
    simp [runSteps, withIdx]
  | cons a t ih =>
    intro i st hb
    obtain ⟨h1, h2, h3⟩ := hb i (le_refl i) (by simp)
    simp only [runSteps]
    rw [if_neg (by simp [h1]), if_neg (by simp [h2]), if_neg (by simp [h3])]
    rw [ih (i + 1) _ (by intro k hk1 hk2; exact hb k (by omega) (by simp at hk2 ⊢; omega))]
    simp [applyStep, withIdx, List.append_assoc]

theorem mem_variedIndices (m : List Bool) (hm : m ≠ []) (n x : ℕ) :
    x ∈ variedIndices (some m) n ↔ (x < m.length ∧ m.getD x true = false) := by
  have : m.isEmpty = false := by
    cases m with
    | nil => exact absurd rfl hm
    | cons a t => rfl
  simp [variedIndices, this, List.mem_filter, List.mem_range]

theorem foldl_set_getD_of_forall_ne :
    ∀ (ps : List (ℕ × ℚ)) (acc : List ℚ) (x : ℕ), (∀ pr ∈ ps, pr.1 ≠ x) →
      (ps.foldl (fun a pr => a.set pr.1 pr.2) acc).getD x 0 = acc.getD x 0 := by
  intro ps
  induction ps with
  | nil => intro acc x _; rfl
  | cons hd tl ih =>
    intro acc x h
    rw [List.foldl_cons, ih _ x (fun pr hpr => h pr (List.mem_cons_of_mem _ hpr))]
    have hne : hd.1 ≠ x := h hd (List.mem_cons_self _ _)
    rw [List.getD_eq_getElem?_getD, List.getD_eq_getElem?_getD,
      List.getElem?_set_ne hne]

/-! ## Claim theorems -/

/-- C7: when a mask marks some parameters fixed (and at least one free),
`fit_intensity_data` runs the optimizer over exactly the non-fixed
indices — the reduced initial guess and reduced bounds are the
restrictions of `p0` and of the bounds to those indices — and in the
reconstructed full parameter vector every fixed parameter's value is
exactly its entry of `p0`, for every possible optimizer output. -/
theorem fit_fixed_params_preserved (angleData intensityData p0 lower upper : List ℚ)
    (m : List Bool) (opt : FitCall → List ℚ)
    (hlen : 3 ≤ angleData.length) (hint : intensityData ≠ [])
    (_hmask : m.length = p0.length) (hfree : false ∈ m) :
    ∃ out : FitCall × List ℚ,
      fit_intensity_data angleData intensityData p0 lower upper (some m) opt = some out ∧
      (∀ x : ℕ, x ∈ variedIndices (some m) p0.length ↔
        (x < m.length ∧ m.getD x true = false)) ∧
      out.1.p0Varied = (variedIndices (some m) p0.length).map (fun i => p0.getD i 0) ∧
      out.1.lowerVaried = (variedIndices (some m) p0.length).map (fun i => lower.getD i 0) ∧
      out.1.upperVaried = (variedIndices (some m) p0.length).map (fun i => upper.getD i 0) ∧
      (∀ i : ℕ, m.getD i true = true → out.2.getD i 0 = p0.getD i 0) := by
  have hm0 : m ≠ [] := by
    intro hnil
    rw [hnil] at hfree
    simp at hfree
  have hchar := mem_variedIndices m hm0 p0.length
  have hguard : ¬ (angleData.isEmpty = true ∨ intensityData.isEmpty = true ∨
      angleData.length < 3) := by
    push_neg
    refine ⟨?_, ?_, by omega⟩
    · cases angleData with
      | nil => simp at hlen
      | cons a t => simp
    · cases intensityData with
      | nil => exact absurd rfl hint
      | cons a t => simp
  obtain ⟨⟨j, hjlt⟩, hjval⟩ := List.mem_iff_get.mp hfree
  have hjmem : j ∈ variedIndices (some m) p0.length := by
    refine (hchar j).mpr ⟨hjlt, ?_⟩
    rw [List.getD_eq_getElem?_getD, List.getElem?_eq_getElem hjlt]
    simpa using hjval
  have hvne : ¬ ((variedIndices (some m) p0.length).isEmpty = true) := by
    rw [List.isEmpty_iff]
    exact List.ne_nil_of_mem hjmem
  refine ⟨({ p0Varied := (variedIndices (some m) p0.length).map (fun i => p0.getD i 0),
             lowerVaried := (variedIndices (some m) p0.length).map (fun i => lower.getD i 0),
             upperVaried := (variedIndices (some m) p0.length).map (fun i => upper.getD i 0) },
           reconstructPopt p0 (variedIndices (some m) p0.length)
             (opt { p0Varied := (variedIndices (some m) p0.length).map (fun i => p0.getD i 0),
                    lowerVaried := (variedIndices (some m) p0.length).map (fun i => lower.getD i 0),
                    upperVaried := (variedIndices (some m) p0.length).map (fun i => upper.getD i 0) })),
         ?_, hchar, rfl, rfl, rfl, ?_⟩
  · rw [fit_intensity_data, if_neg hguard]
    simp only [if_neg hvne]
  · intro i hi
    rw [reconstructPopt]
    apply foldl_set_getD_of_forall_ne
    intro pr hpr hpri
    have hmem : pr.1 ∈ variedIndices (some m) p0.length := (List.of_mem_zip hpr).1
    have := ((hchar pr.1).mp hmem).2
    rw [hpri, hi] at this
    exact Bool.true_eq_false.mp this

/-- C7 witness: p0 = [1, 2, 3] with mask [true, false, true]; for the
optimizer returning the reduced guess unchanged, the reconstructed vector
keeps entries 0 and 2 at their initial values. -/
theorem fit_fixed_params_preserved_witness :
    3 ≤ [(0 : ℚ), 1, 2].length ∧ [(1 : ℚ), 2, 3] ≠ [] ∧
    [true, false, true].length = [(1 : ℚ), 2, 3].length ∧ false ∈ [true, false, true] ∧
    ∃ out : FitCall × List ℚ,
      fit_intensity_data [(0 : ℚ), 1, 2] [(1 : ℚ), 2, 3] [(1 : ℚ), 2, 3]
        [(0 : ℚ), 0, 0] [(9 : ℚ), 9, 9] (some [true, false, true])
        (fun c => c.p0Varied) = some out ∧
      (∀ x : ℕ, x ∈ variedIndices (some [true, false, true]) [(1 : ℚ), 2, 3].length ↔
        (x < [true, false, true].length ∧ [true, false, true].getD x true = false)) ∧
      out.1.p0Varied = (variedIndices (some [true, false, true])
        [(1 : ℚ), 2, 3].length).map (fun i => [(1 : ℚ), 2, 3].getD i 0) ∧
      out.1.lowerVaried = (variedIndices (some [true, false, true])
        [(1 : ℚ), 2, 3].length).map (fun i => [(0 : ℚ), 0, 0].getD i 0) ∧
      out.1.upperVaried = (variedIndices (some [true, false, true])
        [(1 : ℚ), 2, 3].length).map (fun i => [(9 : ℚ), 9, 9].getD i 0) ∧
      (∀ i : ℕ, [true, false, true].getD i true = true →
        out.2.getD i 0 = [(1 : ℚ), 2, 3].getD i 0) :=
  ⟨by norm_num, by simp, rfl, by simp,
   fit_fixed_params_preserved [0, 1, 2] [1, 2, 3] [1, 2, 3] [0, 0, 0] [9, 9, 9]
     [true, false, true] (fun c => c.p0Varied) (by norm_num) (by simp) rfl (by simp)⟩

/-- C3: for every (start, end, step) with step > 0 and end > start, the
computed angle sequence is strictly increasing, its first element equals
start, and its last element is within |step|/2 of end (the inclusive grid
`np.arange(start, end + step/2, step)` is what the code returns: the
fallback to the exclusive grid is never taken for such inputs because the
inclusive grid's last point is always within half a step of end). -/
theorem plan_forward_increasing (s e st : ℚ) (hst : 0 < st) (hse : s < e) :
    ∃ l : List ℚ, computeAngles s e st = .ok l ∧
      l.Pairwise (· < ·) ∧ l.head? = some s ∧
      ∃ la : ℚ, l.getLast? = some la ∧ |la - e| ≤ |st| / 2 := by
  have hne : st ≠ 0 := ne_of_gt hst
  set r : ℚ := (e + st / 2 - s) / st with hr
  have hrpos : 0 < r := div_pos (by linarith) hst
  have hceil : (0 : ℤ) < ⌈r⌉ := Int.ceil_pos.mpr hrpos
  have hlen : arangeLen s (e + st / 2) st = (⌈r⌉).toNat := rfl
  obtain ⟨m, hm⟩ : ∃ m : ℕ, (⌈r⌉).toNat = m + 1 := by
    refine ⟨(⌈r⌉).toNat - 1, ?_⟩
    omega
  -- the rational value of the ceiling
  set c : ℚ := ((⌈r⌉ : ℤ) : ℚ) with hc
  have hrc : r ≤ c := Int.le_ceil r
  have hcr : c < r + 1 := Int.ceil_lt_add_one r
  have hmc : (m : ℚ) = c - 1 := by
    have : ((⌈r⌉).toNat : ℤ) = ⌈r⌉ := Int.toNat_of_nonneg hceil.le
    have h2 : ((m : ℤ) + 1 : ℤ) = ⌈r⌉ := by rw [← this, hm]; push_cast; ring
    have h3 : ((m : ℚ) + 1 : ℚ) = c := by
      rw [hc]
      exact_mod_cast h2
    linarith
  have hrst : r * st = e + st / 2 - s := div_mul_cancel₀ _ hne
  -- the inclusive grid and its last element
  have harr : arange s (e + st / 2) st =
      (List.range (m + 1)).map (fun i : ℕ => s + (i : ℚ) * st) := by
    rw [arange, hlen, hm]
  set la : ℚ := s + (m : ℚ) * st with hla
  have hlast : (arange s (e + st / 2) st).getLast? = some la := by
    rw [harr, List.range_succ, List.map_append]
    simp
  have hhead : (arange s (e + st / 2) st).head? = some s := by
    rw [harr, List.range_succ_eq_map]
    simp
  -- |la - e| ≤ st/2
  have hub : la - e < st / 2 := by
    have h1 : (c - 1 - r) * st < 0 :=
      mul_neg_of_neg_of_pos (by linarith) hst
    have h2 : la - e = (c - 1 - r) * st + st / 2 := by
      rw [hla, hmc]
      nlinarith [hrst]
    linarith
  have hlb : -(st / 2) ≤ la - e := by
    have h1 : (-1 : ℚ) * st ≤ (c - 1 - r) * st :=
      mul_le_mul_of_nonneg_right (by linarith) hst.le
    have h2 : la - e = (c - 1 - r) * st + st / 2 := by
      rw [hla, hmc]
      nlinarith [hrst]
    linarith
  have habs : |la - e| ≤ |st| / 2 := by
    rw [abs_of_pos hst]
    exact abs_le.mpr ⟨hlb, hub.le⟩
  -- the fallback condition is false
  have hcond : ¬ (|la - e| > |st / 2|) := by
    rw [abs_of_pos (by positivity : (0 : ℚ) < st / 2)]
    rw [abs_of_pos hst] at habs
    linarith
  refine ⟨arange s (e + st / 2) st, ?_, ?_, hhead, la, hlast, habs⟩
  · rw [computeAngles, if_neg hne]
    simp only [hlast, if_neg hcond]
  · rw [harr]
    refine List.pairwise_map.mpr ?_
    refine (List.pairwise_lt_range (m + 1)).imp ?_
    intro a b hab
    have hq : (a : ℚ) < (b : ℚ) := by exact_mod_cast hab
    nlinarith

/-- C3 witness at (start, end, step) = (0, 30, 15). -/
theorem plan_forward_increasing_witness :
    (0 : ℚ) < 15 ∧ (0 : ℚ) < 30 ∧
    (∃ l : List ℚ, computeAngles 0 30 15 = .ok l ∧
      l.Pairwise (· < ·) ∧ l.head? = some 0 ∧
      ∃ la : ℚ, l.getLast? = some la ∧ |la - 30| ≤ |(15 : ℚ)| / 2) :=
  ⟨by norm_num, by norm_num, plan_forward_increasing 0 30 15 (by norm_num) (by norm_num)⟩

/-- C2 counterexample: with start = end = 5 and step = 1 the plan
computation does not fail at all — `np.arange(5, 5.5, 1)` yields the
single-point plan `[5]` and the scan runs one step at the start angle.
No `InvalidRangeError` exists anywhere in the code. -/
theorem plan_start_eq_end_not_rejected : computeAngles 5 5 1 = .ok [5] := by
  have harr : arange 5 (5 + 1 / 2) 1 = [5] := by
    rw [arange, arangeLen_eval 5 (5 + 1 / 2) 1 1 (by norm_num) (by norm_num)]
    simp [List.range_succ]
  rw [computeAngles]
  simp only [harr]
  norm_num

/-- C2 amended: the step-plan computation never produces an
`InvalidRangeError` (no such error exists in the code).  Instead:
`step = 0` makes `np.arange` raise `ZeroDivisionError`, which escapes to
the generic exception handler (a crash-style failure, not a validated
rejection), while `start = end` is accepted and silently yields the
one-point plan `[start]` for every nonzero step. -/
theorem plan_degenerate_behavior :
    (∀ s e : ℚ, computeAngles s e 0 = .error .zeroDivisionError) ∧
    (∀ s st : ℚ, st ≠ 0 → computeAngles s s st = .ok [s]) := by
  constructor
  · intro s e
    rw [computeAngles, if_pos rfl]
  · intro s st hne
    have hratio : (s + st / 2 - s) / st = 1 / 2 := by
      rw [show s + st / 2 - s = st / 2 from by ring]
      rw [div_div]
      rw [mul_comm, ← div_div, div_self hne]
    have harr : arange s (s + st / 2) st = [s] := by
      rw [arange, arangeLen_eval s (s + st / 2) st 1 (by rw [hratio]; norm_num)
        (by rw [hratio]; norm_num)]
      simp [List.range_succ]
    rw [computeAngles, if_neg hne]
    simp only [harr]
    simp [List.getLast?, abs_nonneg, not_lt.mpr (abs_nonneg (st / 2))]

/-- C2 amended witness at (start, end, step) = (3, 3, 2). -/
theorem plan_degenerate_behavior_witness :
    (2 : ℚ) ≠ 0 ∧ computeAngles 3 3 2 = .ok [3] :=
  ⟨by norm_num, plan_degenerate_behavior.2 3 2 (by norm_num)⟩

/-- C1 (code-bug evidence): the completion callback can fire twice for a
single `Start`.  With the plan [0, 15, 30], all steps benign, and the
abort event set concurrently before the `finally` block runs (e.g.
`abort_scan()` clicked during the final step, after that step's two abort
checks), the `try` body issues the success completion and the `finally`
block — whose guard `'e' not in locals()` is always true in Python 3,
since an `except ... as e` name is unbound when the handler exits — then
issues a second, contradictory abort completion.  The same double call
happens when an in-loop exception's failure completion races a concurrent
abort.  The code's own comments ("Check if completion already called…")
show the intent was exactly-once. -/
theorem completion_callback_fires_twice :
    (runScanLoop cfgSample none benignRun true).completions =
      [(true, "Scan finished (data retrieval may have failed for some steps)."),
       (false, "Scan aborted by user.")] ∧
    (runScanLoop cfgSample none benignRun true).completions.length = 2 := by
  have hcomp : computeAngles 0 30 15 = .ok [0, 15, 30] := by
    have harr : arange 0 (30 + 15 / 2) 15 = [0, 15, 30] := by
      rw [arange, arangeLen_eval 0 (30 + 15 / 2) 15 3 (by norm_num) (by norm_num)]
      simp [List.range_succ]
      norm_num
    rw [computeAngles]
    simp only [harr]
    norm_num
  have hrun := runSteps_benign cfgSample none benignRun 3 [0, 15, 30] 0 initLoopState
    (fun _ _ _ => ⟨rfl, rfl, rfl⟩)
  simp only [cfgSample] at hrun
  constructor <;> simp [runScanLoop, cfgSample, hcomp, hrun]

/-- C10 counterexample: (start, end, step) = (0, 5, −15) has a step whose
sign opposes the direction from start to end, yet the computed angle
array is `[0]`, not empty — `np.arange(0, 5 − 7.5, −15) = [0]`, and
`|0 − 5| = 5 ≤ 7.5 = |step/2|` keeps the inclusive grid — so no
`IndexError` occurs and a benign run completes with `success=True`,
contradicting the claim's universal "empty array → IndexError →
success=false". -/
theorem opposite_step_not_always_empty :
    computeAngles 0 5 (-15) = .ok [0] ∧
    (runScanLoop
      { start_angle := 0, end_angle := 5, step_angle := -15,
        plot_dynamic_intensity := false, wavelength_min := none, wavelength_max := none }
      none benignRun false).exit = .completed ∧
    (runScanLoop
      { start_angle := 0, end_angle := 5, step_angle := -15,
        plot_dynamic_intensity := false, wavelength_min := none, wavelength_max := none }
      none benignRun false).completions =
      [(true, "Scan finished (data retrieval may have failed for some steps).")] := by
  have hcomp : computeAngles 0 5 (-15) = .ok [0] := by
    have harr : arange 0 (5 + (-15) / 2) (-15) = [0] := by
      rw [arange, arangeLen_eval 0 (5 + (-15) / 2) (-15) 1 (by norm_num) (by norm_num)]
      simp [List.range_succ]
    rw [computeAngles]
    simp only [harr]
    norm_num [abs_of_pos, abs_of_nonpos]
  have hrun := runSteps_benign
    { start_angle := 0, end_angle := 5, step_angle := -15,
      plot_dynamic_intensity := false, wavelength_min := none, wavelength_max := none }
    none benignRun 1 [0] 0 initLoopState
    (by intro k _ _; exact ⟨rfl, rfl, rfl⟩)
  refine ⟨hcomp, ?_, ?_⟩ <;>
    simp [runScanLoop, hcomp, hrun]

/-- C10 amended: the claim's conclusion (empty angle array, `IndexError`
from `angles[-1]`, run terminated by the generic exception handler with
`success=false`) holds for opposite-direction configurations only when
the half-step inclusive stop still lies beyond the start in the step's
direction, i.e. when |end − start| > |step|/2 fails to hold the array is
instead the one-point plan `[start]`.  Start-side acceptance is
unconditional: `start_scan` performs no range validation, so any such
configuration is accepted whenever no scan is running and both devices
are connected. -/
theorem opposite_step_empty_plan (cfg : ScanConfig) (roi : Option (ℕ × ℕ))
    (env : ℕ → StepEnv)
    (h : (cfg.step_angle < 0 ∧ cfg.start_angle < cfg.end_angle ∧
            cfg.start_angle ≤ cfg.end_angle + cfg.step_angle / 2) ∨
         (0 < cfg.step_angle ∧ cfg.end_angle < cfg.start_angle ∧
            cfg.end_angle + cfg.step_angle / 2 ≤ cfg.start_angle)) :
    runScanLoop cfg roi env false =
      { state := initLoopState, exit := .errored .indexError,
        completions := [(false, errMsg .indexError)] } ∧
    ∀ stL : LogicState, stL.isRunning = false →
      (start_scan stL cfg true true).2.1 = .started := by
  have hne : cfg.step_angle ≠ 0 := by
    rcases h with ⟨h1, _, _⟩ | ⟨h1, _, _⟩
    · exact ne_of_lt h1
    · exact ne_of_gt h1
  have hlen0 : arangeLen cfg.start_angle (cfg.end_angle + cfg.step_angle / 2)
      cfg.step_angle = 0 := by
    apply arangeLen_zero
    rcases h with ⟨h1, _, h3⟩ | ⟨h1, _, h3⟩
    · exact div_nonpos_iff.mpr (Or.inl ⟨by linarith, h1.le⟩)
    · exact div_nonpos_iff.mpr (Or.inr ⟨by linarith, h1.le⟩)
  have hcomp : computeAngles cfg.start_angle cfg.end_angle cfg.step_angle =
      .error .indexError := by
    have harr : arange cfg.start_angle (cfg.end_angle + cfg.step_angle / 2)
        cfg.step_angle = [] := by
      rw [arange, hlen0]
      rfl
    rw [computeAngles, if_neg hne]
    simp only [harr]
    rfl
  constructor
  · simp [runScanLoop, hcomp]
  · intro stL hrun
    simp [start_scan, hrun]

/-- C5: the abort flag is consulted both before the pause gate and
immediately after it; if either check observes it set, the loop iteration
exits as aborted with the state untouched — in particular no move is
recorded, no acquisition happens, no result is appended, and no later
step runs.  An abort requested during a pause is therefore honoured on
resume, before any further device operation. -/
theorem abort_checked_before_and_after_pause (cfg : ScanConfig) (roi : Option (ℕ × ℕ))
    (env : ℕ → StepEnv) (numSteps : ℕ) (angle : ℚ) (rest : List ℚ) (i : ℕ)
    (st : LoopState)
    (h : (env i).abortAtCheck1 = true ∨
         ((env i).abortAtCheck1 = false ∧ (env i).abortAtCheck2 = true)) :
    runSteps cfg roi env numSteps (angle :: rest) i st = (st, .aborted) := by
  rcases h with h1 | ⟨h1, h2⟩
  · simp [runSteps, h1]
  · simp [runSteps, h1, h2]

/-- C5 witness: an abort observed just after the pause gate at step 0 of
a two-step plan exits immediately with nothing recorded. -/
theorem abort_checked_before_and_after_pause_witness :
    ((fun _ : ℕ => abortedAtPauseStep) 0).abortAtCheck1 = false ∧
    ((fun _ : ℕ => abortedAtPauseStep) 0).abortAtCheck2 = true ∧
    runSteps cfgSample none (fun _ => abortedAtPauseStep) 2 [0, 15] 0 initLoopState =
      (initLoopState, .aborted) :=
  ⟨rfl, rfl,
   abort_checked_before_and_after_pause cfgSample none (fun _ => abortedAtPauseStep)
     2 0 [15] 0 initLoopState (Or.inr ⟨rfl, rfl⟩)⟩

/-- C9: `start_scan` called while `is_running()` is true returns through
the already-running rejection path and leaves the whole `ScanLogic` state
— stored parameters, abort and pause events — exactly as it was; it makes
no completion callback (and touches neither progress nor the run's
parameters). -/
theorem start_scan_already_running (st : LogicState) (params : ScanConfig)
    (kdcConnected lfConnected : Bool) (h : st.isRunning = true) :
    start_scan st params kdcConnected lfConnected = (st, .alreadyRunningError, []) := by
  simp [start_scan, h]

/-- C9 witness: a second `start_scan` against `runningState` is rejected
and returns the state unchanged. -/
theorem start_scan_already_running_witness :
    runningState.isRunning = true ∧
    start_scan runningState cfgSample true true = (runningState, .alreadyRunningError, []) :=
  ⟨rfl, start_scan_already_running runningState cfgSample true true rfl⟩

/-- C6 counterexample: at loop index i = 0 (the first completed step) the
code emits no ETA — `eta_sec` stays `None` because of the `if i > 0`
guard — although the claim's formula would give
`(5 − 1) · (10 / 1) = 40` for `total_steps = 5`, `elapsed = 10`. -/
theorem eta_absent_at_first_step :
    (progressReport 0 5 10).2 = none ∧
    ((5 : ℚ) - (0 + 1)) * ((10 : ℚ) / (0 + 1)) = 40 ∧
    (progressReport 0 5 10).2 ≠ some 40 := by
  refine ⟨rfl, by norm_num, ?_⟩
  simp [progressReport]

/-- C6 amended: in a run whose every step executes, the report emitted at
the end of step i carries fraction (i+1)/total_steps, and an ETA of
`(total_steps − (i+1)) · (elapsed / (i+1))` — but only from loop index
i ≥ 1 on (i.e. once at least **two** full steps have completed); the
report of the first step (i = 0) carries no ETA. -/
theorem progress_eta_per_step (cfg : ScanConfig) (roi : Option (ℕ × ℕ))
    (env : ℕ → StepEnv) (angles : List ℚ)
    (hb : ∀ k, k < angles.length → benignEnv (env k)) (i : ℕ) (hi : i < angles.length) :
    (runSteps cfg roi env angles.length angles 0 initLoopState).1.reports.getD i (0, none) =
      (((i : ℚ) + 1) / (angles.length : ℚ),
        if 0 < i then
          some (((angles.length : ℚ) - ((i : ℚ) + 1)) * ((env i).elapsed / ((i : ℚ) + 1)))
        else none) := by
  rw [runSteps_benign cfg roi env angles.length angles 0 initLoopState
    (by intro k hk1 hk2; exact hb k (by simpa using hk2))]
  simp only [initLoopState, List.nil_append]
  have hi2 : i < ((withIdx angles 0).map
      (fun p => progressReport p.1 angles.length (env p.1).elapsed)).length := by
    rw [List.length_map, withIdx_length]
    exact hi
  rw [List.getD_eq_getElem?_getD, List.getElem?_eq_getElem hi2]
  have hidx : (withIdx angles 0).get ⟨i, by rw [withIdx_length]; exact hi⟩ =
      (i, angles.get ⟨i, hi⟩) := by
    simpa using withIdx_getElem angles 0 i hi
  rw [List.get_eq_getElem] at hidx
  simp [List.getElem_map, hidx, progressReport]

/-- C6 amended witness: a benign two-step run, queried at step index 1. -/
theorem progress_eta_per_step_witness :
    (∀ k, k < [(5 : ℚ), 10].length → benignEnv (benignRun k)) ∧
    1 < [(5 : ℚ), 10].length ∧
    (runSteps cfgSample none benignRun [(5 : ℚ), 10].length [(5 : ℚ), 10] 0
        initLoopState).1.reports.getD 1 (0, none) =
      (((1 : ℚ) + 1) / (([(5 : ℚ), 10].length : ℕ) : ℚ),
        if 0 < (1 : ℕ) then
          some (((([(5 : ℚ), 10].length : ℕ) : ℚ) - ((1 : ℚ) + 1)) *
            ((benignRun 1).elapsed / ((1 : ℚ) + 1)))
        else none) :=
  ⟨fun _ _ => ⟨rfl, rfl, rfl⟩, by norm_num,
   progress_eta_per_step cfgSample none benignRun [5, 10]
     (fun _ _ => ⟨rfl, rfl, rfl⟩) 1 (by norm_num)⟩

/-- C4: in a run with no abort and successful acquisitions, any number of
steps with unretrievable artifacts (fetched = none) is non-fatal: the
loop completes, every step contributes exactly one `StepResult`, each
step's result is a function of that step's own environment alone (so
steps after a failed fetch are unaffected), a fetch-failed step's result
records the target and measured angle with the default intensity 0 and
no series, and the failure surfaces only as a warning status. -/
theorem missing_artifact_non_fatal (cfg : ScanConfig) (roi : Option (ℕ × ℕ))
    (env : ℕ → StepEnv) (angles : List ℚ)
    (hb : ∀ k, k < angles.length → benignEnv (env k)) :
    ((runSteps cfg roi env angles.length angles 0 initLoopState).2 = .completed) ∧
    ((runSteps cfg roi env angles.length angles 0 initLoopState).1.results.length =
      angles.length) ∧
    (∀ j, ∀ hj : j < angles.length,
      (runSteps cfg roi env angles.length angles 0 initLoopState).1.results.getD j default =
        stepResultOf roi (env j) (angles.get ⟨j, hj⟩)) ∧
    (∀ j, ∀ hj : j < angles.length, (env j).fetched = none →
      (runSteps cfg roi env angles.length angles 0 initLoopState).1.results.getD j default =
        { angle_target := angles.get ⟨j, hj⟩, angle_actual := (env j).actualPos,
          intensity := 0 } ∧
      "File not found" ∈
        (runSteps cfg roi env angles.length angles 0 initLoopState).1.warnings) := by
  have hcl := runSteps_benign cfg roi env angles.length angles 0 initLoopState
    (by intro k hk1 hk2; exact hb k (by simpa using hk2))
  have hpoint : ∀ j, ∀ hj : j < angles.length,
      (runSteps cfg roi env angles.length angles 0 initLoopState).1.results.getD j default =
        stepResultOf roi (env j) (angles.get ⟨j, hj⟩) := by
    intro j hj
    rw [hcl]
    simp only [initLoopState, List.nil_append]
    have hj2 : j < ((withIdx angles 0).map
        (fun p => stepResultOf roi (env p.1) p.2)).length := by
      rw [List.length_map, withIdx_length]
      exact hj
    rw [List.getD_eq_getElem?_getD, List.getElem?_eq_getElem hj2]
    have hidx : (withIdx angles 0).get ⟨j, by rw [withIdx_length]; exact hj⟩ =
        (j, angles.get ⟨j, hj⟩) := by
      simpa using withIdx_getElem angles 0 j hj
    rw [List.get_eq_getElem] at hidx
    simp [List.getElem_map, hidx]
  refine ⟨by rw [hcl], ?_, hpoint, ?_⟩
  · rw [hcl]
    simp [initLoopState, withIdx_length]
  · intro j hj hfetch
    refine ⟨?_, ?_⟩
    · rw [hpoint j hj]
      simp [stepResultOf, hfetch]
    · rw [hcl]
      simp only [initLoopState, List.nil_append]
      refine List.mem_flatMap.mpr ⟨(j, angles.get ⟨j, hj⟩), ?_, ?_⟩
      · simpa using withIdx_mem angles 0 j hj
      · simp [stepWarnings, hfetch]

/-- C8: at a fully-executed step with the dynamic metric enabled, band
[wvlMin, wvlMax] configured and an artifact loaded, the loop proceeds to
the next step and the result is still appended; if some artifact point
has its independent value in the closed band, the pair
(measured angle, metric) is appended to the accumulating fit dataset
where the metric is the maximum of the dependent values over exactly the
in-band points (both endpoints inclusive); if no point is in band, the
dataset is unchanged and only a warning is emitted — the step itself does
not fail. -/
theorem dynamic_metric_step (cfg : ScanConfig) (roi : Option (ℕ × ℕ))
    (env : ℕ → StepEnv) (numSteps i : ℕ) (angle : ℚ) (rest : List ℚ)
    (st : LoopState) (wvlMin wvlMax : ℚ) (rows : List (ℚ × ℚ))
    (hben : benignEnv (env i))
    (hdyn : cfg.plot_dynamic_intensity = true)
    (hmin : cfg.wavelength_min = some wvlMin)
    (hmax : cfg.wavelength_max = some wvlMax)
    (hfetch : (env i).fetched = some rows) :
    runSteps cfg roi env numSteps (angle :: rest) i st =
      runSteps cfg roi env numSteps rest (i + 1)
        (applyStep cfg roi (env i) i numSteps angle
          { st with moves := st.moves ++ [angle] }) ∧
    (applyStep cfg roi (env i) i numSteps angle
        { st with moves := st.moves ++ [angle] }).results =
      st.results ++ [stepResultOf roi (env i) angle] ∧
    ((rows.filter (fun r => decide (wvlMin ≤ r.1) && decide (r.1 ≤ wvlMax)) ≠ [] →
      ∃ metric : ℚ,
        dynFitPoint cfg (env i) = some ((env i).actualPos, metric) ∧
        metric ∈ (rows.filter
          (fun r => decide (wvlMin ≤ r.1) && decide (r.1 ≤ wvlMax))).map Prod.snd ∧
        (∀ y ∈ (rows.filter
          (fun r => decide (wvlMin ≤ r.1) && decide (r.1 ≤ wvlMax))).map Prod.snd,
          y ≤ metric) ∧
        (applyStep cfg roi (env i) i numSteps angle
            { st with moves := st.moves ++ [angle] }).fitPoints =
          st.fitPoints ++ [((env i).actualPos, metric)]) ∧
     (rows.filter (fun r => decide (wvlMin ≤ r.1) && decide (r.1 ≤ wvlMax)) = [] →
      dynFitPoint cfg (env i) = none ∧
      (applyStep cfg roi (env i) i numSteps angle
          { st with moves := st.moves ++ [angle] }).fitPoints = st.fitPoints ∧
      "No data points found within wavelength range" ∈
        (applyStep cfg roi (env i) i numSteps angle
          { st with moves := st.moves ++ [angle] }).warnings)) := by
  obtain ⟨h1, h2, h3⟩ := hben
  refine ⟨?_, by simp [applyStep], ?_, ?_⟩
  · simp only [runSteps]
    rw [if_neg (by simp [h1]), if_neg (by simp [h2]), if_neg (by simp [h3])]
  · intro hnonempty
    obtain ⟨m, hm⟩ : ∃ m, ((rows.filter
        (fun r => decide (wvlMin ≤ r.1) && decide (r.1 ≤ wvlMax))).map Prod.snd).max? =
        some m := by
      cases hcase : ((rows.filter
          (fun r => decide (wvlMin ≤ r.1) && decide (r.1 ≤ wvlMax))).map Prod.snd).max? with
      | none =>
        rw [List.max?_eq_none_iff, List.map_eq_nil_iff] at hcase
        exact absurd hcase hnonempty
      | some m => exact ⟨m, rfl⟩
    obtain ⟨hmem, hub⟩ := (rat_max?_eq_some_iff _ m).mp hm
    refine ⟨m, ?_, hmem, hub, ?_⟩
    · simp [dynFitPoint, hdyn, hmin, hmax, hfetch, hm]
    · simp [applyStep, dynFitPoint, hdyn, hmin, hmax, hfetch, hm]
  · intro hempty
    have hnone : dynFitPoint cfg (env i) = none := by
      simp [dynFitPoint, hdyn, hmin, hmax, hfetch, hempty]
    refine ⟨hnone, by simp [applyStep, hnone], ?_⟩
    simp [applyStep, stepWarnings, hdyn, hmin, hmax, hfetch, hempty]

/-- C8 witness: `dynStep` at a band [700, 800] holding the points
(750, 5) and (760, 3); the metric is 5 and the loop proceeds. -/
theorem dynamic_metric_step_witness :
    benignEnv (dynRun 0) ∧
    cfgDyn.plot_dynamic_intensity = true ∧
    cfgDyn.wavelength_min = some 700 ∧
    cfgDyn.wavelength_max = some 800 ∧
    (dynRun 0).fetched = some [(650, 1), (750, 5), (760, 3), (900, 9)] ∧
    runSteps cfgDyn none dynRun 1 [0] 0 initLoopState =
      runSteps cfgDyn none dynRun 1 [] (0 + 1)
        (applyStep cfgDyn none (dynRun 0) 0 1 0
          { initLoopState with moves := initLoopState.moves ++ [0] }) :=
  ⟨⟨rfl, rfl, rfl⟩, rfl, rfl, rfl, rfl,
   (dynamic_metric_step cfgDyn none dynRun 1 0 0 [] initLoopState 700 800
     [(650, 1), (750, 5), (760, 3), (900, 9)]
     ⟨rfl, rfl, rfl⟩ rfl rfl rfl rfl).1⟩

/-- C4 witness: a two-step plan in which both artifacts are missing. -/
theorem missing_artifact_non_fatal_witness :
    (∀ k, k < [(0 : ℚ), 15].length → benignEnv (benignRun k)) ∧
    (benignRun 0).fetched = none ∧
    (runSteps cfgSample none benignRun [(0 : ℚ), 15].length [(0 : ℚ), 15] 0
      initLoopState).2 = .completed ∧
    (runSteps cfgSample none benignRun [(0 : ℚ), 15].length [(0 : ℚ), 15] 0
      initLoopState).1.results.length = [(0 : ℚ), 15].length ∧
    "File not found" ∈ (runSteps cfgSample none benignRun [(0 : ℚ), 15].length
      [(0 : ℚ), 15] 0 initLoopState).1.warnings := by
  have h := missing_artifact_non_fatal cfgSample none benignRun [0, 15]
    (fun _ _ => ⟨rfl, rfl, rfl⟩)
  exact ⟨fun _ _ => ⟨rfl, rfl, rfl⟩, rfl, h.1, h.2.1,
    (h.2.2.2 0 (by norm_num) rfl).2⟩

/-- C10 amended witness at configuration (0, 90, −15) with a benign
environment and an idle logic state. -/
theorem opposite_step_empty_plan_witness :
    ((-15 : ℚ) < 0 ∧ (0 : ℚ) < 90 ∧ (0 : ℚ) ≤ 90 + (-15) / 2) ∧
    (runScanLoop
        { start_angle := 0, end_angle := 90, step_angle := -15,
          plot_dynamic_intensity := false, wavelength_min := none, wavelength_max := none }
        none benignRun false =
      { state := initLoopState, exit := .errored .indexError,
        completions := [(false, errMsg .indexError)] } ∧
      ∀ stL : LogicState, stL.isRunning = false →
        (start_scan stL
          { start_angle := 0, end_angle := 90, step_angle := -15,
            plot_dynamic_intensity := false, wavelength_min := none,
            wavelength_max := none } true true).2.1 = .started) :=
  ⟨by norm_num,
   opposite_step_empty_plan _ none benignRun (Or.inl (by norm_num))⟩

end SHGScan
